import Mathlib

/-!
Verification of the SMPyBandits multi-player bandit protocol sources.

Shallow embedding of:
* `PoliciesMultiPlayers/rhoEst.py` — the `oneRhoEst` child policy
  (rank / population-estimation state machine) and the `rhoEst` /
  `rhoEstPlus` coordinator constructors;
* `Policies/EpsilonGreedy.py` — the `EpsilonGreedy` policy
  (constructor validation, `getReward`, `choiceWithRank`);
* `SMPyBandits/Policies/UCBoost.py` — the un-pulled-arm guard of
  `computeIndex` in `UCB_bq`, `UCBoost` and `UCBoostEpsilon`.

Machine reals of the source (threshold values, rewards, epsilon) are
modelled as rationals; the transcendental helpers (the closed-form UCB
distance solvers, `log`) are abstract parameters, as the spec treats them
as external collaborators.
-/

/-- Python runtime errors that the embedded fragments can raise. -/
inductive PyErr
  | assertionError
  | indexError
  | attributeError
  | valueError
  deriving DecidableEq, Repr

/-! ## `oneRhoEst` (PoliciesMultiPlayers/rhoEst.py, class `oneRhoEst`)

The fields are exactly the per-agent variables the Python class mutates:
`rank`, `nbPlayersEstimate`, `collisionCount`, `timeSinceLastCollision`,
together with the immutable `nbArms` and optional `horizon`.
The wrapped single-player policy's own statistics live outside this
structure; its estimated arm ranking enters `handleCollision` as the
explicit argument `order` (the result of `self.estimatedOrder()`). -/

structure OneRhoEst where
  nbArms : Nat
  horizon : Option ℚ
  /-- Python initialises `rank` to `None`; we use `0` for that pre-game
  value, `startGame` sets it to `1` before any use. -/
  rank : Nat
  nbPlayersEstimate : Nat
  collisionCount : Nat
  timeSinceLastCollision : Nat
  deriving DecidableEq, Repr

/-- A threshold function, as passed to `oneRhoEst.__init__`: it receives
`timeSinceLastCollision`, `nbPlayersEstimate` and the optional horizon. -/
abbrev ThresholdFun := Nat → Nat → Option ℚ → ℚ

/-- `oneRhoEst.startGame` (rhoEst.py lines 57-64): rank = 1,
`nbPlayersEstimate` = 1, `collisionCount` = 0, `timeSinceLastCollision` = 0. -/
def OneRhoEst.startGame (s : OneRhoEst) : OneRhoEst :=
  { s with rank := 1, nbPlayersEstimate := 1, collisionCount := 0,
           timeSinceLastCollision := 0 }

/-- `oneRhoEst.getReward` (rhoEst.py lines 95-101): one more step without
collision, then the reward is forwarded to the wrapped policy (whose state
is not part of this structure). -/
def OneRhoEst.getReward (s : OneRhoEst) : OneRhoEst :=
  { s with timeSinceLastCollision := s.timeSinceLastCollision + 1 }

/-- `oneRhoEst.handleCollision` (rhoEst.py lines 66-93).

* `order` is the value of `self.estimatedOrder()` (computed by the wrapped
  policy, outside this file's sources);
* `draw` is the value of `rn.randint(self.nbPlayersEstimate)`, so the
  caller guarantees `draw < nbPlayersEstimate`;
* the optional reward forwarding of lines 69-71 only touches the wrapped
  policy (note it calls the parent `getReward`, which does **not**
  increment `timeSinceLastCollision`), so it does not appear here. -/
def OneRhoEst.handleCollision (tf : ThresholdFun) (order : List Nat)
    (arm : Nat) (draw : Nat) (s : OneRhoEst) : OneRhoEst :=
  -- self.rank = 1 + rn.randint(self.nbPlayersEstimate)
  let s1 := { s with rank := 1 + draw }
  -- if order[arm] >= self.nbPlayersEstimate: self.collisionCount += 1
  let s2 := if s1.nbPlayersEstimate ≤ order.getD arm 0
            then { s1 with collisionCount := s1.collisionCount + 1 }
            else s1
  -- threshold = self.threshold(self.timeSinceLastCollision, self.nbPlayersEstimate, self.horizon)
  let th := tf s2.timeSinceLastCollision s2.nbPlayersEstimate s2.horizon
  -- if self.collisionCount > threshold: bump the estimate, reset the count
  let s3 := if th < (s2.collisionCount : ℚ)
            then { s2 with nbPlayersEstimate := min (1 + s2.nbPlayersEstimate) s2.nbArms,
                           collisionCount := 0 }
            else s2
  -- self.timeSinceLastCollision = 0
  { s3 with timeSinceLastCollision := 0 }

/-- One feedback event delivered by the harness to a `oneRhoEst` agent
within a game: either a collision-free reward, or a collision (carrying
the wrapped policy's estimated order and the uniform random draw). -/
inductive RhoEvent
  | reward (arm : Nat) (rw : ℚ)
  | collision (order : List Nat) (arm : Nat) (draw : Nat)
  deriving Repr

/-- Apply one event to the agent state. -/
def OneRhoEst.step (tf : ThresholdFun) (s : OneRhoEst) : RhoEvent → OneRhoEst
  | RhoEvent.reward _ _ => s.getReward
  | RhoEvent.collision order arm draw => s.handleCollision tf order arm draw

/-- State after delivering a list of events to `s`. -/
def OneRhoEst.runFrom (tf : ThresholdFun) (s : OneRhoEst)
    (es : List RhoEvent) : OneRhoEst :=
  es.foldl (OneRhoEst.step tf) s

/-- State of one agent after `startGame` followed by the events `es`:
one whole game. -/
def OneRhoEst.run (tf : ThresholdFun) (s0 : OneRhoEst)
    (es : List RhoEvent) : OneRhoEst :=
  OneRhoEst.runFrom tf s0.startGame es

/-- The draws carried by the collision events are genuine results of
`rn.randint(self.nbPlayersEstimate)`: each is below the agent's estimate
at the moment of that call. -/
def validDraws (tf : ThresholdFun) : OneRhoEst → List RhoEvent → Bool
  | _, [] => true
  | s, e :: es =>
    (match e with
     | RhoEvent.reward _ _ => true
     | RhoEvent.collision _ _ draw => decide (draw < s.nbPlayersEstimate))
    && validDraws tf (s.step tf e) es

/-! ### Basic step lemmas -/

theorem OneRhoEst.handleCollision_nbArms (tf : ThresholdFun) (order : List Nat)
    (arm draw : Nat) (s : OneRhoEst) :
    (s.handleCollision tf order arm draw).nbArms = s.nbArms := by
  simp only [OneRhoEst.handleCollision]
  split <;> split <;> rfl

theorem OneRhoEst.step_nbArms (tf : ThresholdFun) (s : OneRhoEst) (e : RhoEvent) :
    (s.step tf e).nbArms = s.nbArms := by
  cases e with
  | reward arm rw => rfl
  | collision order arm draw => exact OneRhoEst.handleCollision_nbArms ..

/-- In one `handleCollision` call the estimate is either unchanged or set
to `min (1 + old) nbArms`. -/
theorem OneRhoEst.handleCollision_estimate (tf : ThresholdFun) (order : List Nat)
    (arm draw : Nat) (s : OneRhoEst) :
    (s.handleCollision tf order arm draw).nbPlayersEstimate = s.nbPlayersEstimate ∨
    (s.handleCollision tf order arm draw).nbPlayersEstimate
      = min (1 + s.nbPlayersEstimate) s.nbArms := by
  simp only [OneRhoEst.handleCollision]
  split <;> split <;> simp

/-- Estimate-related invariant: the estimate stays within `[1, nbArms]`
(and `nbArms` is positive). -/
def EstInv (s : OneRhoEst) : Prop :=
  1 ≤ s.nbArms ∧ 1 ≤ s.nbPlayersEstimate ∧ s.nbPlayersEstimate ≤ s.nbArms

theorem estInv_step (tf : ThresholdFun) (s : OneRhoEst) (e : RhoEvent)
    (h : EstInv s) : EstInv (s.step tf e) := by
  obtain ⟨h1, h2, h3⟩ := h
  cases e with
  | reward arm rw => exact ⟨h1, h2, h3⟩
  | collision order arm draw =>
    have hA := OneRhoEst.handleCollision_nbArms tf order arm draw s
    rcases OneRhoEst.handleCollision_estimate tf order arm draw s with hE | hE <;>
      refine ⟨?_, ?_, ?_⟩ <;> simp only [OneRhoEst.step, hA, hE] <;> omega

theorem estInv_step_mono (tf : ThresholdFun) (s : OneRhoEst) (e : RhoEvent)
    (h : EstInv s) :
    s.nbPlayersEstimate ≤ (s.step tf e).nbPlayersEstimate := by
  obtain ⟨h1, h2, h3⟩ := h
  cases e with
  | reward arm rw => exact Nat.le_refl _
  | collision order arm draw =>
    rcases OneRhoEst.handleCollision_estimate tf order arm draw s with hE | hE <;>
      simp only [OneRhoEst.step, hE] <;> omega

theorem estInv_runFrom (tf : ThresholdFun) (es : List RhoEvent) (s : OneRhoEst)
    (h : EstInv s) : EstInv (s.runFrom tf es) := by
  induction es generalizing s with
  | nil => exact h
  | cons e es ih => exact ih _ (estInv_step tf s e h)

theorem estimate_runFrom_mono (tf : ThresholdFun) (es : List RhoEvent)
    (s : OneRhoEst) (h : EstInv s) :
    s.nbPlayersEstimate ≤ (s.runFrom tf es).nbPlayersEstimate := by
  induction es generalizing s with
  | nil => exact Nat.le_refl _
  | cons e es ih =>
    exact Nat.le_trans (estInv_step_mono tf s e h) (ih _ (estInv_step tf s e h))

theorem estInv_startGame (s0 : OneRhoEst) (h : 1 ≤ s0.nbArms) :
    EstInv s0.startGame :=
  ⟨h, Nat.le_refl 1, h⟩

theorem runFrom_append (tf : ThresholdFun) (s : OneRhoEst)
    (es es2 : List RhoEvent) :
    s.runFrom tf (es ++ es2) = (s.runFrom tf es).runFrom tf es2 :=
  List.foldl_append ..

theorem OneRhoEst.runFrom_nbArms (tf : ThresholdFun) (es : List RhoEvent)
    (s : OneRhoEst) : (s.runFrom tf es).nbArms = s.nbArms := by
  induction es generalizing s with
  | nil => rfl
  | cons e es ih => rw [OneRhoEst.runFrom, List.foldl_cons, ← OneRhoEst.runFrom, ih,
      OneRhoEst.step_nbArms]

theorem OneRhoEst.handleCollision_rank (tf : ThresholdFun) (order : List Nat)
    (arm draw : Nat) (s : OneRhoEst) :
    (s.handleCollision tf order arm draw).rank = 1 + draw := by
  simp only [OneRhoEst.handleCollision]
  split <;> split <;> rfl

/-! ### Concrete data used by the witnesses -/

/-- Horizon-free threshold function that is constantly `0`
(any pure function of this signature is a legal threshold). -/
def tfZero : ThresholdFun := fun _ _ _ => 0

/-- Threshold function that is constantly `100`. -/
def tfBig : ThresholdFun := fun _ _ _ => 100

/-- A 3-arm agent before `startGame`. -/
def sEx : OneRhoEst :=
  { nbArms := 3, horizon := none, rank := 0, nbPlayersEstimate := 1,
    collisionCount := 0, timeSinceLastCollision := 0 }

/-- A 3-arm agent mid-game with `nbPlayersEstimate = 2`. -/
def sEx2 : OneRhoEst :=
  { nbArms := 3, horizon := none, rank := 1, nbPlayersEstimate := 2,
    collisionCount := 0, timeSinceLastCollision := 0 }

/-! ### Claim theorems for the `oneRhoEst` state machine -/

/-- C1: within a single game the population estimate never decreases:
`startGame` sets `nbPlayersEstimate` to 1, any further events (rewards and
collisions in any order) can only keep it or raise it, and one
`handleCollision` either leaves it unchanged or increases it by exactly 1,
never past `nbArms`. -/
theorem rhoEst_estimate_monotone (tf : ThresholdFun) (s0 : OneRhoEst)
    (h : 1 ≤ s0.nbArms) (es tail : List RhoEvent) (order : List Nat)
    (arm draw : Nat) :
    (s0.startGame).nbPlayersEstimate = 1
    ∧ (OneRhoEst.run tf s0 es).nbPlayersEstimate
        ≤ (OneRhoEst.run tf s0 (es ++ tail)).nbPlayersEstimate
    ∧ ((OneRhoEst.run tf s0 (es ++ [RhoEvent.collision order arm draw])).nbPlayersEstimate
          = (OneRhoEst.run tf s0 es).nbPlayersEstimate
       ∨ ((OneRhoEst.run tf s0 (es ++ [RhoEvent.collision order arm draw])).nbPlayersEstimate
            = (OneRhoEst.run tf s0 es).nbPlayersEstimate + 1
          ∧ (OneRhoEst.run tf s0 es).nbPlayersEstimate + 1 ≤ s0.nbArms)) := by
  have hInv : EstInv (OneRhoEst.run tf s0 es) :=
    estInv_runFrom tf es s0.startGame (estInv_startGame s0 h)
  have hArms : (OneRhoEst.run tf s0 es).nbArms = s0.nbArms := by
    rw [OneRhoEst.run, OneRhoEst.runFrom_nbArms]; rfl
  refine ⟨rfl, ?_, ?_⟩
  · simp only [OneRhoEst.run]
    rw [runFrom_append]
    exact estimate_runFrom_mono tf tail _ hInv
  · simp only [OneRhoEst.run]
    rw [runFrom_append]
    obtain ⟨h1, h2, h3⟩ := hInv
    rw [OneRhoEst.run] at hArms h2 h3
    rw [OneRhoEst.runFrom, List.foldl_cons, List.foldl_nil]
    simp only [OneRhoEst.step]
    rcases OneRhoEst.handleCollision_estimate tf order arm draw
        (OneRhoEst.runFrom tf s0.startGame es) with hE | hE
    · exact Or.inl hE
    · rw [hE, hArms]
      omega

theorem rhoEst_estimate_monotone_witness :
    1 ≤ sEx.nbArms
    ∧ ((sEx.startGame).nbPlayersEstimate = 1
    ∧ (OneRhoEst.run tfZero sEx []).nbPlayersEstimate
        ≤ (OneRhoEst.run tfZero sEx
            ([] ++ [RhoEvent.collision [0, 1, 2] 0 0])).nbPlayersEstimate
    ∧ ((OneRhoEst.run tfZero sEx
          ([] ++ [RhoEvent.collision [0, 1, 2] 0 0])).nbPlayersEstimate
          = (OneRhoEst.run tfZero sEx []).nbPlayersEstimate
       ∨ ((OneRhoEst.run tfZero sEx
            ([] ++ [RhoEvent.collision [0, 1, 2] 0 0])).nbPlayersEstimate
            = (OneRhoEst.run tfZero sEx []).nbPlayersEstimate + 1
          ∧ (OneRhoEst.run tfZero sEx []).nbPlayersEstimate + 1 ≤ sEx.nbArms))) :=
  ⟨by decide,
   rhoEst_estimate_monotone tfZero sEx (by decide)
     [] [RhoEvent.collision [0, 1, 2] 0 0] [0, 1, 2] 0 0⟩

/-- Rank-related invariant of an agent state. -/
def RankInv (s : OneRhoEst) : Prop :=
  1 ≤ s.nbArms ∧ 1 ≤ s.rank ∧ s.rank ≤ s.nbPlayersEstimate
    ∧ s.nbPlayersEstimate ≤ s.nbArms

theorem rankInv_step (tf : ThresholdFun) (s : OneRhoEst) (e : RhoEvent)
    (h : RankInv s)
    (hd : ∀ order arm draw, e = RhoEvent.collision order arm draw →
      draw < s.nbPlayersEstimate) :
    RankInv (s.step tf e) := by
  obtain ⟨h1, h2, h3, h4⟩ := h
  cases e with
  | reward arm rw => exact ⟨h1, h2, h3, h4⟩
  | collision order arm draw =>
    have hdraw := hd order arm draw rfl
    have hr := OneRhoEst.handleCollision_rank tf order arm draw s
    have hA := OneRhoEst.handleCollision_nbArms tf order arm draw s
    rcases OneRhoEst.handleCollision_estimate tf order arm draw s with hE | hE <;>
      refine ⟨?_, ?_, ?_, ?_⟩ <;> simp only [OneRhoEst.step, hA, hE, hr] <;> omega

theorem rankInv_runFrom (tf : ThresholdFun) (es : List RhoEvent)
    (s : OneRhoEst) (h : RankInv s) (hv : validDraws tf s es = true) :
    RankInv (s.runFrom tf es) := by
  induction es generalizing s with
  | nil => exact h
  | cons e es ih =>
    simp only [validDraws, Bool.and_eq_true] at hv
    refine ih _ (rankInv_step tf s e h ?_) hv.2
    rintro order arm draw rfl
    exact of_decide_eq_true hv.1

/-- C2: for a game with `nbArms ≥ 1` and genuine uniform draws, after
`startGame` and after any sequence of `getReward` / `handleCollision`
events, `1 ≤ rank ≤ nbPlayersEstimate ≤ nbArms`. -/
theorem rhoEst_rank_invariant (tf : ThresholdFun) (s0 : OneRhoEst)
    (h : 1 ≤ s0.nbArms) (es : List RhoEvent)
    (hv : validDraws tf s0.startGame es = true) :
    1 ≤ (OneRhoEst.run tf s0 es).rank
    ∧ (OneRhoEst.run tf s0 es).rank ≤ (OneRhoEst.run tf s0 es).nbPlayersEstimate
    ∧ (OneRhoEst.run tf s0 es).nbPlayersEstimate ≤ s0.nbArms := by
  have hS : RankInv s0.startGame := ⟨h, Nat.le_refl 1, Nat.le_refl 1, h⟩
  have hR := rankInv_runFrom tf es s0.startGame hS hv
  have hArms : (OneRhoEst.run tf s0 es).nbArms = s0.nbArms := by
    rw [OneRhoEst.run, OneRhoEst.runFrom_nbArms]; rfl
  obtain ⟨h1, h2, h3, h4⟩ := hR
  rw [OneRhoEst.run] at hArms ⊢
  exact ⟨h2, h3, hArms ▸ h4⟩

theorem rhoEst_rank_invariant_witness :
    (1 ≤ sEx.nbArms
      ∧ validDraws tfZero sEx.startGame
          [RhoEvent.reward 0 (1/2), RhoEvent.collision [2, 1, 0] 1 0] = true)
    ∧ (1 ≤ (OneRhoEst.run tfZero sEx
          [RhoEvent.reward 0 (1/2), RhoEvent.collision [2, 1, 0] 1 0]).rank
    ∧ (OneRhoEst.run tfZero sEx
          [RhoEvent.reward 0 (1/2), RhoEvent.collision [2, 1, 0] 1 0]).rank
        ≤ (OneRhoEst.run tfZero sEx
          [RhoEvent.reward 0 (1/2), RhoEvent.collision [2, 1, 0] 1 0]).nbPlayersEstimate
    ∧ (OneRhoEst.run tfZero sEx
          [RhoEvent.reward 0 (1/2), RhoEvent.collision [2, 1, 0] 1 0]).nbPlayersEstimate
        ≤ sEx.nbArms) :=
  ⟨⟨by decide, by decide⟩,
   rhoEst_rank_invariant tfZero sEx (by decide)
     [RhoEvent.reward 0 (1/2), RhoEvent.collision [2, 1, 0] 1 0] (by decide)⟩

/-- C4: in one `handleCollision` call, writing `count` for the collision
count after the counting step and `th` for
`threshold(timeSinceLastCollision, nbPlayersEstimate, horizon)` evaluated
on the pre-call state: if `count > th` then the estimate becomes
`min (nbPlayersEstimate + 1) nbArms` and the count is reset to 0,
otherwise both keep their values; `timeSinceLastCollision` is reset to 0
unconditionally. -/
theorem rhoEst_threshold_update (tf : ThresholdFun) (order : List Nat)
    (arm draw : Nat) (s : OneRhoEst) :
    (s.handleCollision tf order arm draw).nbPlayersEstimate
      = (if tf s.timeSinceLastCollision s.nbPlayersEstimate s.horizon
            < ((if s.nbPlayersEstimate ≤ order.getD arm 0
                then s.collisionCount + 1 else s.collisionCount : Nat) : ℚ)
         then min (s.nbPlayersEstimate + 1) s.nbArms
         else s.nbPlayersEstimate)
    ∧ (s.handleCollision tf order arm draw).collisionCount
      = (if tf s.timeSinceLastCollision s.nbPlayersEstimate s.horizon
            < ((if s.nbPlayersEstimate ≤ order.getD arm 0
                then s.collisionCount + 1 else s.collisionCount : Nat) : ℚ)
         then 0
         else (if s.nbPlayersEstimate ≤ order.getD arm 0
               then s.collisionCount + 1 else s.collisionCount))
    ∧ (s.handleCollision tf order arm draw).timeSinceLastCollision = 0 := by
  simp only [OneRhoEst.handleCollision]
  by_cases hc : s.nbPlayersEstimate ≤ order.getD arm 0 <;>
    simp only [hc, if_true, if_false] <;>
    refine ⟨?_, ?_, trivial⟩ <;> split_ifs <;> simp <;> omega

/-- C5: `handleCollision` sets the rank to `1 + draw` where `draw` is the
uniform sample from `{0, ..., nbPlayersEstimate - 1}`; hence the new rank
lies in `[1, nbPlayersEstimate]` (the pre-call estimate), and every value
`k` of that interval is reached by the draw `k - 1`. -/
theorem rhoEst_rank_resample (tf : ThresholdFun) (order : List Nat)
    (arm : Nat) (s : OneRhoEst) (draw k : Nat)
    (hd : draw < s.nbPlayersEstimate) (hk1 : 1 ≤ k)
    (hk2 : k ≤ s.nbPlayersEstimate) :
    (s.handleCollision tf order arm draw).rank = 1 + draw
    ∧ 1 ≤ (s.handleCollision tf order arm draw).rank
    ∧ (s.handleCollision tf order arm draw).rank ≤ s.nbPlayersEstimate
    ∧ k - 1 < s.nbPlayersEstimate
    ∧ (s.handleCollision tf order arm (k - 1)).rank = k := by
  have h1 := OneRhoEst.handleCollision_rank tf order arm draw s
  have h2 := OneRhoEst.handleCollision_rank tf order arm (k - 1) s
  refine ⟨h1, ?_, ?_, ?_, ?_⟩ <;> omega

theorem rhoEst_rank_resample_witness :
    (1 < sEx2.nbPlayersEstimate ∧ 1 ≤ 2 ∧ 2 ≤ sEx2.nbPlayersEstimate)
    ∧ ((sEx2.handleCollision tfZero [2, 1, 0] 0 1).rank = 1 + 1
    ∧ 1 ≤ (sEx2.handleCollision tfZero [2, 1, 0] 0 1).rank
    ∧ (sEx2.handleCollision tfZero [2, 1, 0] 0 1).rank ≤ sEx2.nbPlayersEstimate
    ∧ 2 - 1 < sEx2.nbPlayersEstimate
    ∧ (sEx2.handleCollision tfZero [2, 1, 0] 0 (2 - 1)).rank = 2) :=
  ⟨⟨by decide, by decide, by decide⟩,
   rhoEst_rank_resample tfZero [2, 1, 0] 0 sEx2 1 2
     (by decide) (by decide) (by decide)⟩

/-- C9: the new rank is drawn from the estimate held at the start of the
`handleCollision` call, so the post-call rank is at most the pre-call
estimate; when the call increments the estimate, the post-call rank is at
most the new estimate minus 1. -/
theorem rhoEst_rank_uses_pre_estimate (tf : ThresholdFun) (order : List Nat)
    (arm draw : Nat) (s : OneRhoEst) (hd : draw < s.nbPlayersEstimate) :
    (s.handleCollision tf order arm draw).rank ≤ s.nbPlayersEstimate
    ∧ ((s.handleCollision tf order arm draw).nbPlayersEstimate
         = s.nbPlayersEstimate + 1 →
       (s.handleCollision tf order arm draw).rank
         ≤ (s.handleCollision tf order arm draw).nbPlayersEstimate - 1) := by
  have h1 := OneRhoEst.handleCollision_rank tf order arm draw s
  exact ⟨by omega, fun hinc => by omega⟩

theorem rhoEst_rank_uses_pre_estimate_witness :
    0 < sEx.nbPlayersEstimate
    ∧ (sEx.handleCollision tfZero [2, 1, 0] 0 0).rank ≤ sEx.nbPlayersEstimate
    ∧ (sEx.handleCollision tfZero [2, 1, 0] 0 0).nbPlayersEstimate
        = sEx.nbPlayersEstimate + 1
    ∧ (sEx.handleCollision tfZero [2, 1, 0] 0 0).rank
        ≤ (sEx.handleCollision tfZero [2, 1, 0] 0 0).nbPlayersEstimate - 1 :=
  ⟨by decide,
   (rhoEst_rank_uses_pre_estimate tfZero [2, 1, 0] 0 0 sEx (by decide)).1,
   by decide,
   (rhoEst_rank_uses_pre_estimate tfZero [2, 1, 0] 0 0 sEx (by decide)).2
     (by decide)⟩

/-! ## Claim C3: the collision-counting test (rhoEst.py line 81)

`order = self.estimatedOrder()` is computed by the wrapped policy, outside
these sources; only its interface is specified. -/

/-- Modelled from the spec: `estimatedOrder` — a capability of the wrapped
single-player policy, absent from these sources — returns "a permutation
of arm indices" ranking the arms from highest to lowest preference. This
predicate states that `order` is such a ranking over `nbArms` arms. -/
def IsEstimatedOrder (nbArms : Nat) (order : List Nat) : Prop :=
  List.Perm order (List.range nbArms)

/-- The position of `arm` in the ranking `order` (0 = most preferred):
the claim's "position in the wrapped policy's estimated ranking". -/
def positionInOrder (order : List Nat) (arm : Nat) : Nat := order.indexOf arm

/-- A 2-arm agent mid-game with `nbPlayersEstimate = 1`. -/
def sTwoArms : OneRhoEst :=
  { nbArms := 2, horizon := none, rank := 1, nbPlayersEstimate := 1,
    collisionCount := 0, timeSinceLastCollision := 0 }

/-- C3 fails on the code: with two arms ranked `[1, 0]` (arm 1 most
preferred) and estimate 1, a collision on arm 0 — whose position in the
ranking is 1, hence not among the top 1 — still increments
`collisionCount`: line 81 compares `order[arm]`, the arm index stored at
position `arm` of the ranking, with the estimate, not the collided arm's
position in the ranking. -/
theorem rhoEst_collision_count_divergence :
    IsEstimatedOrder 2 [1, 0]
    ∧ ¬ positionInOrder [1, 0] 0 < sTwoArms.nbPlayersEstimate
    ∧ (sTwoArms.handleCollision tfBig [1, 0] 0 0).collisionCount
        = sTwoArms.collisionCount + 1 := by
  refine ⟨?_, by decide, by decide⟩
  simp only [IsEstimatedOrder]
  decide

/-! ## `EpsilonGreedy` (Policies/EpsilonGreedy.py) -/

structure EpsilonGreedy where
  nbArms : Nat
  epsilon : ℚ
  rewards : List ℚ
  deriving DecidableEq, Repr

/-- `EpsilonGreedy.__init__` (lines 20-24): `assert 0 <= epsilon <= 1`,
then `rewards = np.zeros(nbArms)`. -/
def EpsilonGreedy.init (nbArms : Nat) (epsilon : ℚ) : Except PyErr EpsilonGreedy :=
  if 0 ≤ epsilon ∧ epsilon ≤ 1 then
    Except.ok { nbArms := nbArms, epsilon := epsilon,
                rewards := List.replicate nbArms 0 }
  else Except.error PyErr.assertionError

/-- `EpsilonGreedy.startGame` (line 30): `self.rewards.fill(0)`. -/
def EpsilonGreedy.startGame (p : EpsilonGreedy) : EpsilonGreedy :=
  { p with rewards := List.replicate p.rewards.length 0 }

/-- `EpsilonGreedy.getReward` (lines 40-41): `self.rewards[arm] += reward`. -/
def EpsilonGreedy.getReward (p : EpsilonGreedy) (arm : Nat)
    (reward : ℚ) : EpsilonGreedy :=
  { p with rewards := p.rewards.set arm (p.rewards.getD arm 0 + reward) }

/-- Insert a value into an ascending list, keeping it ascending. -/
def insertAsc (x : ℚ) : List ℚ → List ℚ
  | [] => [x]
  | y :: ys => if x ≤ y then x :: y :: ys else y :: insertAsc x ys

/-- `np.sort` (ascending) on a list of values. -/
def pySortAsc (l : List ℚ) : List ℚ := l.foldr insertAsc []

/-- `np.sort(np.unique(l))`: the distinct values, ascending. -/
def npSortedUnique (l : List ℚ) : List ℚ := (pySortAsc l).dedup

/-- Python `l[-rank]`: `none` models the `IndexError`. -/
def pyGetNeg (l : List ℚ) (rank : Nat) : Option ℚ :=
  if h0 : rank = 0 then l.head?
  else if h : rank ≤ l.length then some (l.get ⟨l.length - rank, by omega⟩)
  else none

/-- The `chosenIndex` computation of `choiceWithRank` (lines 48-53): try
`uniqueValues[-rank]` and, on `IndexError`, fall back to the plain sorted
`rewards[-rank]` (which itself raises when `rank` exceeds the arm count). -/
def chosenIndexWithRank (p : EpsilonGreedy) (rank : Nat) : Except PyErr ℚ :=
  match pyGetNeg (npSortedUnique p.rewards) rank with
  | some v => Except.ok v
  | none =>
    match pyGetNeg (pySortAsc p.rewards) rank with
    | some v => Except.ok v
    | none => Except.error PyErr.indexError

/-- The exploit branch of `EpsilonGreedy.choiceWithRank` (lines 46-56).
After `chosenIndex` is computed, line 55 evaluates `self.index` — but the
`EpsilonGreedy` class never defines an attribute `index` (`__init__` sets
only `nbArms`, `epsilon` and `rewards`, and no method adds one), so the
attribute lookup raises `AttributeError` before any arm is selected. -/
def choiceWithRankExploit (p : EpsilonGreedy) (rank : Nat) : Except PyErr Nat :=
  match chosenIndexWithRank p rank with
  | Except.error e => Except.error e
  | Except.ok _ => Except.error PyErr.attributeError

/-- C6 fails on the code: with three arms, all rewards equal (a single
rankable distinct value) and `rank = 2`, the exploit branch of
`choiceWithRank` does not fall back to returning an arm — the fallback
value is computed, but line 55 then reads the undefined attribute
`self.index` and raises `AttributeError`. -/
theorem epsilonGreedy_choiceWithRank_raises :
    (npSortedUnique ([0, 0, 0] : List ℚ)).length < 2
    ∧ choiceWithRankExploit
        { nbArms := 3, epsilon := 1/10, rewards := [0, 0, 0] } 2
        = Except.error PyErr.attributeError := by
  constructor
  · decide
  · rfl

/-! ## Coordinator construction (rhoEst.py, classes `rhoEst` / `rhoEstPlus`) -/

/-- A fresh `oneRhoEst` as built by `oneRhoEst.__init__` (lines 37-52):
estimate 1, counters 0, `rank = None` (modelled as 0). -/
def mkOneRhoEst (nbArms : Nat) (horizon : Option ℚ) : OneRhoEst :=
  { nbArms := nbArms, horizon := horizon, rank := 0, nbPlayersEstimate := 1,
    collisionCount := 0, timeSinceLastCollision := 0 }

/-- The coordinator state: the declared player count, the arm count and
the pool of children (the wrapped policy instances are external). -/
structure RhoCoordinator where
  nbPlayers : Int
  nbArms : Nat
  children : List OneRhoEst
  deriving Repr

/-- Boolean success test for an `Except` result. -/
def exceptOk {e a : Type} : Except e a → Bool
  | Except.ok _ => true
  | Except.error _ => false

/-- `rhoEst.__init__` (lines 110-135): `assert nbPlayers > 0`, then one
horizon-free `oneRhoEst` child per player slot. -/
def rhoEstInit (nbPlayers : Int) (nbArms : Nat) : Except PyErr RhoCoordinator :=
  if 0 < nbPlayers then
    Except.ok { nbPlayers := nbPlayers, nbArms := nbArms,
                children := List.replicate nbPlayers.toNat (mkOneRhoEst nbArms none) }
  else Except.error PyErr.assertionError

/-- `rhoEstPlus.__init__` (lines 147-172): `assert nbPlayers > 0`, then
one `oneRhoEst` child per player slot, all with the known horizon and the
horizon-aware threshold. -/
def rhoEstPlusInit (nbPlayers : Int) (nbArms : Nat) (horizon : ℚ) :
    Except PyErr RhoCoordinator :=
  if 0 < nbPlayers then
    Except.ok { nbPlayers := nbPlayers, nbArms := nbArms,
                children := List.replicate nbPlayers.toNat
                  (mkOneRhoEst nbArms (some horizon)) }
  else Except.error PyErr.assertionError

/-- C7: construction fails fast exactly on invalid parameters: `rhoEst`
and `rhoEstPlus` raise a configuration (assertion) error iff
`nbPlayers ≤ 0`, `EpsilonGreedy` raises iff `epsilon` lies outside
`[0, 1]`, and a successful `EpsilonGreedy` construction stores `epsilon`
unclamped. -/
theorem construction_validation (nbPlayers : Int) (nbArms : Nat)
    (horizon epsilon : ℚ) :
    exceptOk (rhoEstInit nbPlayers nbArms) = decide (0 < nbPlayers)
    ∧ exceptOk (rhoEstPlusInit nbPlayers nbArms horizon) = decide (0 < nbPlayers)
    ∧ exceptOk (EpsilonGreedy.init nbArms epsilon)
        = decide (0 ≤ epsilon ∧ epsilon ≤ 1)
    ∧ (EpsilonGreedy.init nbArms epsilon).map EpsilonGreedy.epsilon
        = (if 0 ≤ epsilon ∧ epsilon ≤ 1 then Except.ok epsilon
           else Except.error PyErr.assertionError) := by
  refine ⟨?_, ?_, ?_, ?_⟩ <;>
    simp only [rhoEstInit, rhoEstPlusInit, EpsilonGreedy.init] <;>
    split <;> simp_all [exceptOk, Except.map]

/-- Example `EpsilonGreedy` state with two arms. -/
def egEx : EpsilonGreedy := { nbArms := 2, epsilon := 1/10, rewards := [3, 5] }

/-- C10: `EpsilonGreedy.getReward` adds the reward to the chosen arm's
cumulative reward and changes nothing else: every other arm's entry,
`nbArms`, `epsilon` and the rewards-array length are untouched. -/
theorem epsilonGreedy_getReward_frame (p : EpsilonGreedy) (arm b : Nat)
    (reward : ℚ) (h : arm < p.rewards.length) (hb : b ≠ arm) :
    (p.getReward arm reward).rewards.getD arm 0 = p.rewards.getD arm 0 + reward
    ∧ (p.getReward arm reward).rewards.getD b 0 = p.rewards.getD b 0
    ∧ (p.getReward arm reward).nbArms = p.nbArms
    ∧ (p.getReward arm reward).epsilon = p.epsilon
    ∧ (p.getReward arm reward).rewards.length = p.rewards.length := by
  refine ⟨?_, ?_, rfl, rfl, by simp [EpsilonGreedy.getReward]⟩
  · simp [EpsilonGreedy.getReward, List.getD, List.getElem?_set, h]
  · simp [EpsilonGreedy.getReward, List.getD, List.getElem?_set, Ne.symm hb]

theorem epsilonGreedy_getReward_frame_witness :
    (0 < egEx.rewards.length ∧ (1 : Nat) ≠ 0)
    ∧ ((egEx.getReward 0 7).rewards.getD 0 0 = egEx.rewards.getD 0 0 + 7
    ∧ (egEx.getReward 0 7).rewards.getD 1 0 = egEx.rewards.getD 1 0
    ∧ (egEx.getReward 0 7).nbArms = egEx.nbArms
    ∧ (egEx.getReward 0 7).epsilon = egEx.epsilon
    ∧ (egEx.getReward 0 7).rewards.length = egEx.rewards.length) :=
  ⟨⟨by decide, by decide⟩,
   epsilonGreedy_getReward_frame egEx 0 1 7 (by decide) (by decide)⟩

/-! ## `UCBoost.py`: un-pulled arms get infinite priority -/

/-- An index value: either `float(+inf)` or a finite value. -/
inductive IndexVal
  | posInf
  | val (q : ℚ)
  deriving DecidableEq, Repr

/-- Index-policy statistics used by `computeIndex` in `UCBoost.py`:
pull counts, cumulative rewards, the time `t` and the constant `c`. -/
structure UCBoostState where
  nbArms : Nat
  c : ℚ
  t : Nat
  pulls : List Nat
  rewards : List ℚ
  deriving DecidableEq, Repr

/-- The exploration level `(log(t) + c*log(max(1, log(t)))) / pulls[arm]`
passed to the solvers, with `rlog` an abstract model of `np.log`. -/
def klucbBonus (rlog : ℚ → ℚ) (s : UCBoostState) (arm : Nat) : ℚ :=
  (rlog s.t + s.c * rlog (max 1 (rlog s.t))) / (s.pulls.getD arm 0 : ℚ)

/-- `UCB_bq.computeIndex` (UCBoost.py lines 124-134), with the closed-form
solver `solution_pb_bq` abstracted as `sol` (an external collaborator in
the spec's sense). -/
def UCB_bq.computeIndex (sol : ℚ → ℚ → ℚ) (rlog : ℚ → ℚ)
    (s : UCBoostState) (arm : Nat) : IndexVal :=
  if s.pulls.getD arm 0 < 1 then IndexVal.posInf
  else IndexVal.val (sol (s.rewards.getD arm 0 / (s.pulls.getD arm 0 : ℚ))
                         (klucbBonus rlog s arm))

/-- `UCBoost.computeIndex` (UCBoost.py lines 438-453): minimum over the
configured solvers (`set_D` resolved through `_distance_of_key`);
Python's `min` of an empty sequence raises `ValueError`. -/
def UCBoost.computeIndex (set_D : List (ℚ → ℚ → ℚ)) (rlog : ℚ → ℚ)
    (s : UCBoostState) (arm : Nat) : Except PyErr IndexVal :=
  if s.pulls.getD arm 0 < 1 then Except.ok IndexVal.posInf
  else
    match set_D.map (fun d =>
        d (s.rewards.getD arm 0 / (s.pulls.getD arm 0 : ℚ))
          (klucbBonus rlog s arm)) with
    | [] => Except.error PyErr.valueError
    | x :: xs => Except.ok (IndexVal.val (xs.foldl min x))

/-- Minimum of two index values, `+inf` being the neutral element. -/
def ivMin : IndexVal → IndexVal → IndexVal
  | IndexVal.posInf, y => y
  | IndexVal.val a, IndexVal.posInf => IndexVal.val a
  | IndexVal.val a, IndexVal.val b => IndexVal.val (min a b)

/-- `UCBoostEpsilon.computeIndex` (UCBoost.py lines 536-560): minimum of
the two fixed solvers (`solution_pb_sq`, `solution_pb_kllb`) and of the
epsilon-approximation solutions (`solutions_pb_from_epsilon`, abstracted
as `solsEps`), the latter counting as `+inf` when the list is empty. -/
def UCBoostEpsilon.computeIndex (sol_sq sol_kllb : ℚ → ℚ → ℚ)
    (solsEps : ℚ → ℚ → List ℚ) (rlog : ℚ → ℚ)
    (s : UCBoostState) (arm : Nat) : IndexVal :=
  if s.pulls.getD arm 0 < 1 then IndexVal.posInf
  else
    let p := s.rewards.getD arm 0 / (s.pulls.getD arm 0 : ℚ)
    let ub := klucbBonus rlog s arm
    let minEps := match solsEps p ub with
      | [] => IndexVal.posInf
      | x :: xs => IndexVal.val (xs.foldl min x)
    ivMin (IndexVal.val (min (sol_sq p ub) (sol_kllb p ub))) minEps

/-- C8: an arm with zero pulls gets index `+inf` in `UCB_bq`, `UCBoost`
and `UCBoostEpsilon`, whatever the solvers and the log model — the
division by the pull count is never evaluated. -/
theorem computeIndex_unpulled (sol sol_sq sol_kllb : ℚ → ℚ → ℚ)
    (set_D : List (ℚ → ℚ → ℚ)) (solsEps : ℚ → ℚ → List ℚ) (rlog : ℚ → ℚ)
    (s : UCBoostState) (arm : Nat) (h : s.pulls.getD arm 0 = 0) :
    UCB_bq.computeIndex sol rlog s arm = IndexVal.posInf
    ∧ UCBoost.computeIndex set_D rlog s arm = Except.ok IndexVal.posInf
    ∧ UCBoostEpsilon.computeIndex sol_sq sol_kllb solsEps rlog s arm
        = IndexVal.posInf := by
  have h2 : s.pulls.getD arm 0 < 1 := by omega
  refine ⟨?_, ?_, ?_⟩ <;>
    simp only [UCB_bq.computeIndex, UCBoost.computeIndex,
      UCBoostEpsilon.computeIndex, if_pos h2]

/-- Example `UCBoost.py` statistics where arm 0 was never pulled. -/
def ubEx : UCBoostState :=
  { nbArms := 2, c := 3, t := 5, pulls := [0, 4], rewards := [0, 2] }

theorem computeIndex_unpulled_witness :
    ubEx.pulls.getD 0 0 = 0
    ∧ (UCB_bq.computeIndex (fun _ _ => 0) (fun _ => 0) ubEx 0 = IndexVal.posInf
    ∧ UCBoost.computeIndex [fun _ _ => 0] (fun _ => 0) ubEx 0
        = Except.ok IndexVal.posInf
    ∧ UCBoostEpsilon.computeIndex (fun _ _ => 0) (fun _ _ => 0)
        (fun _ _ => []) (fun _ => 0) ubEx 0 = IndexVal.posInf) :=
  ⟨rfl,
   computeIndex_unpulled (fun _ _ => 0) (fun _ _ => 0) (fun _ _ => 0)
     [fun _ _ => 0] (fun _ _ => []) (fun _ => 0) ubEx 0 rfl⟩
